import Mathlib

/-!
Verification development for `bot.py` of the Laura-Bot repository.

The script is shallowly embedded: the flat log file is an `Option String`
(`none` = the file does not exist, `some c` = the file exists with raw
content `c`), the filesystem seen by the image-size adapter is an
association list from paths to file data, and the remote service is a
sink that records which blobs were uploaded.  Python string operations
(`str.strip`, `file.readlines`) are modelled character-exactly on
`List Char`.
-/

deriving instance DecidableEq for Except

/-- The characters removed by CPython's `str.strip()`
(`Py_UNICODE_ISSPACE`): tab, line feed, vertical tab, form feed,
carriage return, the file/group/record/unit separators 0x1C-0x1F,
space, next line 0x85, no-break space 0xA0, Ogham space mark 0x1680,
the space separators 0x2000-0x200A, line separator 0x2028, paragraph
separator 0x2029, narrow no-break space 0x202F, medium mathematical
space 0x205F, and ideographic space 0x3000. -/
def isPyWs (c : Char) : Bool :=
  let n := c.toNat
  (0x09 ≤ n && n ≤ 0x0D) || (0x1C ≤ n && n ≤ 0x1F) || n == 0x20 ||
    n == 0x85 || n == 0xA0 || n == 0x1680 ||
    (0x2000 ≤ n && n ≤ 0x200A) || n == 0x2028 || n == 0x2029 ||
    n == 0x202F || n == 0x205F || n == 0x3000

/-- Python `line.strip()`: remove leading and trailing whitespace. -/
def pyStrip (l : List Char) : List Char :=
  ((l.dropWhile isPyWs).reverse.dropWhile isPyWs).reverse

/-- Python `file.readlines()` on raw content: split after each newline,
keeping the terminator at the end of every line; a final segment without
a terminator is kept, and empty content yields no lines.  The
accumulator holds the current (reversed) partial line. -/
def pyReadlinesAux : List Char → List Char → List (List Char)
  | [], acc => if acc.isEmpty then [] else [acc.reverse]
  | c :: rest, acc =>
    if c = '\n' then (acc.reverse ++ ['\n']) :: pyReadlinesAux rest []
    else pyReadlinesAux rest (c :: acc)

/-- `readlines` over the content of the log file. -/
def pyReadlines (c : String) : List (List Char) :=
  pyReadlinesAux c.data []

/-- `is_image_posted` from bot.py: `false` when the log file does not
exist (`FileNotFoundError` is caught); otherwise read all lines, strip
each with `line.strip()`, and test membership of the path. -/
def is_image_posted (image_path : String) (log : Option String) : Bool :=
  match log with
  | none => false
  | some c => decide (image_path.data ∈ (pyReadlines c).map pyStrip)

/-- `log_posted_image` from bot.py: open the log in append mode
(creating it when missing) and write the path followed by a newline. -/
def log_posted_image (image_path : String) (log : Option String) : Option String :=
  some ((log.getD "") ++ image_path ++ "\n")

/-- `get_next_image` from bot.py.  `images` is the (already shuffled)
result of `glob.glob(directory + "*")`; the function returns `none` on
an empty listing, else the first entry not recorded in the log. -/
def get_next_image (images : List String) (log : Option String) : Option String :=
  if images.isEmpty then none
  else images.find? fun image => !is_image_posted image log

/-- A decoded PIL image: only the pixel dimensions matter to the code
(`image.width`, `image.height`); `convert("RGB")` preserves them. -/
structure PILImage where
  width : Nat
  height : Nat
deriving DecidableEq, Repr

/-- What the adapter observes about a file: its encoded byte size
(`os.path.getsize`) and, when the bytes form a decodable image, the
decoded image (`Image.open` raises otherwise, modeled by `none`). -/
structure FileData where
  size : Nat
  image : Option PILImage
deriving DecidableEq, Repr

/-- The filesystem visible to the script: an association list from
paths to file data (later writes shadow earlier entries). -/
abbrev Fs := List (String × FileData)

/-- Read the file at a path (`none` = no such file). -/
def getFile (fs : Fs) (p : String) : Option FileData :=
  List.lookup p fs

/-- The JPEG encoder at the fixed settings used by the script
(`"JPEG", quality=85, optimize=True`).  The encoded byte size of a
re-encoded image is outside the script's control, so it is a parameter
of the model: a function of the pixel dimensions. -/
structure Codec where
  encodeSize : Nat → Nat → Nat

/-- Failures `compress_image` can raise: `os.path.getsize` on a missing
file, or `Image.open` on bytes that are not a decodable image. -/
inductive CompressError
  | fileNotFound
  | decodeError
deriving DecidableEq, Repr

/-- `size_limit = 976560` from bot.py. -/
def size_limit : Nat := 976560

/-- `compress_image` from bot.py.  Returns the path to use for the
upload together with the filesystem after any derived files were
written, or the error raised.  The resize dimensions
`int(image.width * size_ratio)` with
`size_ratio = size_limit / image_size * 0.9` are modelled in exact
arithmetic: `width * size_limit * 9 / (image_size * 10)` with `Nat`
(floor) division, `image_size` being the size of the compressed file. -/
def compress_image (codec : Codec) (fs : Fs) (image_path : String) :
    Except CompressError (String × Fs) :=
  match getFile fs image_path with
  | none => .error .fileNotFound
  | some f =>
    if f.size ≤ size_limit then
      .ok (image_path, fs)
    else
      match f.image with
      | none => .error .decodeError
      | some img =>
        let compressed_image_path := image_path ++ "_compressed.jpg"
        let csize := codec.encodeSize img.width img.height
        let fs₁ : Fs := (compressed_image_path, ⟨csize, some img⟩) :: fs
        if csize ≤ size_limit then
          .ok (compressed_image_path, fs₁)
        else
          let resized_image_path := image_path ++ "_resized.jpg"
          let nw := img.width * size_limit * 9 / (csize * 10)
          let nh := img.height * size_limit * 9 / (csize * 10)
          let fs₂ : Fs := (resized_image_path, ⟨codec.encodeSize nw nh, some ⟨nw, nh⟩⟩) :: fs₁
          .ok (resized_image_path, fs₂)

/-- Remove a path from the filesystem (`os.remove`; removing a missing
path is a no-op here because the caller guards with `os.path.exists`). -/
def removeFile (fs : Fs) (p : String) : Fs :=
  fs.filter fun e => !(e.1 == p)

/-- `delete_image_copies` from bot.py: delete the `_compressed.jpg` and
`_resized.jpg` derivatives of a path when present. -/
def delete_image_copies (fs : Fs) (image_path : String) : Fs :=
  removeFile (removeFile fs (image_path ++ "_compressed.jpg"))
    (image_path ++ "_resized.jpg")

/-- One rich-text facet feature as built in `post_to_bluesky`
(`$type` and `tag` fields). -/
structure FacetFeature where
  type : String
  tag : String
deriving DecidableEq, Repr

/-- The byte range of a facet (`byteStart`, `byteEnd`). -/
structure FacetIndex where
  byteStart : Nat
  byteEnd : Nat
deriving DecidableEq, Repr

/-- A rich-text facet: a byte range plus its features. -/
structure Facet where
  index : FacetIndex
  features : List FacetFeature
deriving DecidableEq, Repr

/-- The post record submitted by `create_record`: text, facets, and an
embed referencing the uploaded blob (identified here by the path whose
bytes were uploaded). -/
structure PostRecord where
  text : String
  facets : List Facet
  embedImagePath : String
deriving DecidableEq, Repr

/-- The record built in `post_to_bluesky`: `post_text = ""`,
`hashtag_length = len(post_text)`, one facet with byte range
`[0, hashtag_length]` and a single `#tag` feature with
`tag = "トロプリ"`. -/
def mkPostRecord (image_path : String) : PostRecord :=
  let post_text := ""
  let hashtag_length := post_text.length
  { text := post_text
    facets := [{ index := { byteStart := 0, byteEnd := hashtag_length }
                 features := [{ type := "app.bsky.richtext.facet#tag", tag := "トロプリ" }] }]
    embedImagePath := image_path }

/-- The state one invocation of the script acts on: the filesystem, the
(already shuffled) directory listing seen by `glob`, the raw content of
`posted_images.log`, and the record of blobs uploaded to the remote
service (path and file data of each published image, oldest first). -/
structure World where
  fs : Fs
  dirList : List String
  log : Option String
  published : List (String × FileData)
deriving DecidableEq, Repr

/-- How one invocation of `post_to_bluesky` ended (login assumed to
succeed; network failures are outside the model). -/
inductive RunOutcome
  | noImage
  | alreadyPosted
  | readError
  | posted (p : String)
deriving DecidableEq, Repr

/-- `post_to_bluesky` from bot.py: select the next image, re-check the
log (early return when already posted), read the image bytes from the
selected path, upload them, submit the record, and append the path to
the log.  Neither `compress_image` nor `delete_image_copies` is invoked
anywhere in this function. -/
def post_to_bluesky (w : World) : World × RunOutcome :=
  match get_next_image w.dirList w.log with
  | none => (w, .noImage)
  | some image_path =>
    if is_image_posted image_path w.log then
      (w, .alreadyPosted)
    else
      match getFile w.fs image_path with
      | none => (w, .readError)
      | some f =>
        ({ w with
            published := w.published ++ [(image_path, f)]
            log := log_posted_image image_path w.log },
          .posted image_path)

/-- A codec whose re-encodings always come out at 500000 bytes. -/
def smallCodec : Codec := ⟨fun _ _ => 500000⟩

/-- A codec whose re-encodings stay large: `w * h + 2000000` bytes. -/
def bigCodec : Codec := ⟨fun w h => w * h + 2000000⟩

/-- A 2,000,000-byte decodable image of 4000 × 3000 pixels. -/
def bigFile : FileData := ⟨2000000, some ⟨4000, 3000⟩⟩

/-- A world holding a single oversized unposted image. -/
def bigWorld : World :=
  { fs := [("images/big.png", bigFile)]
    dirList := ["images/big.png"]
    log := none
    published := [] }

/-- A filesystem holding a zero-byte file. -/
def zeroFs : Fs := [("images/zero.png", ⟨0, none⟩)]

/-- A filesystem holding a file of exactly the size ceiling. -/
def ceilingFs : Fs := [("images/ok.png", ⟨976560, none⟩)]

/-- A filesystem holding an oversized file that is not a decodable image. -/
def badFs : Fs := [("images/bad.png", ⟨2000000, none⟩)]

/-- A filesystem holding one oversized decodable image, for the resize path. -/
def resizeFs : Fs := [("images/big2.png", ⟨2000000, some ⟨4000, 3000⟩⟩)]

/-- The filesystem after `compress_image bigCodec resizeFs "images/big2.png"`:
the compressed copy (4000 × 3000 at 14,000,000 bytes, still oversized) and
the resized copy (251 × 188) are written next to the original. -/
def resizeFsAfter : Fs :=
  [("images/big2.png_resized.jpg", ⟨2047188, some ⟨251, 188⟩⟩),
   ("images/big2.png_compressed.jpg", ⟨14000000, some ⟨4000, 3000⟩⟩),
   ("images/big2.png", ⟨2000000, some ⟨4000, 3000⟩⟩)]

/-! ### Helper lemmas -/

/-- An entry returned by `get_next_image` was accepted by its filter,
so it is not recorded in the log. -/
theorem get_next_image_not_posted (D : List String) (L : Option String) (p : String)
    (h : get_next_image D L = some p) : is_image_posted p L = false := by
  unfold get_next_image at h
  split at h
  · exact absurd h (by simp)
  · simpa using List.find?_some h

/-- Appending a nonempty suffix changes a string. -/
theorem ne_append_right (p s : String) (hs : s.length ≠ 0) : p ≠ p ++ s := by
  intro h
  have := congrArg String.length h
  rw [String.length_append] at this
  omega

/-- Reading a path other than the newly written one is unaffected. -/
theorem getFile_cons_ne (fs : Fs) (k q : String) (v : FileData) (h : q ≠ k) :
    getFile ((k, v) :: fs) q = getFile fs q := by
  simp [getFile, List.lookup_cons, beq_eq_false_iff_ne.mpr h]

/-! ### Claims -/

/-- C2: for every directory listing `D` and log state `L`,
`get_next_image` never returns a path recorded in `L`, and it returns
`none` exactly when `D` is empty or every path in `D` is recorded. -/
theorem selectNext_correct (D : List String) (L : Option String) :
    (∀ p, get_next_image D L = some p → is_image_posted p L = false) ∧
    (get_next_image D L = none ↔ (D = [] ∨ ∀ p ∈ D, is_image_posted p L = true)) := by
  refine ⟨fun p h => get_next_image_not_posted D L p h, ?_⟩
  unfold get_next_image
  by_cases hD : D = []
  · subst hD; simp
  · simp [List.isEmpty_iff, hD, List.find?_eq_none]

theorem selectNext_correct_witness :
    is_image_posted "images/b.png" (some "images/a.png\n") = false ∧
    (get_next_image ["images/a.png"] (some "images/a.png\n") = none ↔
      (["images/a.png"] = [] ∨
        ∀ p ∈ ["images/a.png"], is_image_posted p (some "images/a.png\n") = true)) :=
  ⟨(selectNext_correct ["images/a.png", "images/b.png"] (some "images/a.png\n")).1
      "images/b.png" (by decide),
   (selectNext_correct ["images/a.png"] (some "images/a.png\n")).2⟩

/-- C9: a path returned by `get_next_image` is never recorded in the
unchanged log, so the already-posted re-check in `post_to_bluesky`
never fires: no invocation ends with outcome `alreadyPosted`. -/
theorem selected_never_posted_guard :
    (∀ (D : List String) (L : Option String) (p : String),
        get_next_image D L = some p → is_image_posted p L = false) ∧
    (∀ w : World, (post_to_bluesky w).2 ≠ RunOutcome.alreadyPosted) := by
  refine ⟨fun D L p h => get_next_image_not_posted D L p h, fun w => ?_⟩
  unfold post_to_bluesky
  cases hsel : get_next_image w.dirList w.log with
  | none => simp
  | some p =>
    have hnp := get_next_image_not_posted _ _ _ hsel
    simp only [hnp]
    cases hrd : getFile w.fs p <;> simp

theorem selected_never_posted_guard_witness :
    is_image_posted "images/big.png" none = false ∧
    (post_to_bluesky bigWorld).2 ≠ RunOutcome.alreadyPosted :=
  ⟨selected_never_posted_guard.1 ["images/big.png"] none "images/big.png" (by decide),
   selected_never_posted_guard.2 bigWorld⟩

/-- C3: a source file whose encoded byte size is at most the 976560
ceiling (equality included) is returned unchanged: same path, no
re-encoding, and no derived file written (the filesystem is returned
exactly as it was). -/
theorem compress_within_ceiling_unchanged (codec : Codec) (fs : Fs) (p : String)
    (f : FileData) (hf : getFile fs p = some f) (hs : f.size ≤ size_limit) :
    compress_image codec fs p = .ok (p, fs) := by
  simp only [compress_image, hf]
  rw [if_pos hs]

theorem compress_within_ceiling_unchanged_witness :
    compress_image smallCodec ceilingFs "images/ok.png" = .ok ("images/ok.png", ceilingFs) :=
  compress_within_ceiling_unchanged smallCodec ceilingFs "images/ok.png"
    ⟨976560, none⟩ (by decide) (by decide)

/-- C4: when the compressed copy still exceeds the ceiling, the adapter
scales both dimensions by `size_limit / compressedSize * 0.9` (in exact
arithmetic, truncated to integers), writes the result at the same
encoder settings to `<original>_resized.jpg`, and returns that path
unconditionally — the resulting size (whatever the codec produces) is
never checked again. -/
theorem compress_resize_formula (codec : Codec) (fs : Fs) (p : String)
    (f : FileData) (img : PILImage)
    (hf : getFile fs p = some f) (hbig : size_limit < f.size)
    (himg : f.image = some img)
    (hcbig : size_limit < codec.encodeSize img.width img.height) :
    compress_image codec fs p =
      .ok (p ++ "_resized.jpg",
        (p ++ "_resized.jpg",
          ⟨codec.encodeSize
              (img.width * size_limit * 9 / (codec.encodeSize img.width img.height * 10))
              (img.height * size_limit * 9 / (codec.encodeSize img.width img.height * 10)),
            some ⟨img.width * size_limit * 9 / (codec.encodeSize img.width img.height * 10),
                  img.height * size_limit * 9 / (codec.encodeSize img.width img.height * 10)⟩⟩) ::
        (p ++ "_compressed.jpg", ⟨codec.encodeSize img.width img.height, some img⟩) :: fs) := by
  simp only [compress_image, hf, himg]
  rw [if_neg (by omega), if_neg (by omega)]

theorem compress_resize_formula_witness :
    compress_image bigCodec resizeFs "images/big2.png" =
      .ok ("images/big2.png_resized.jpg", resizeFsAfter) := by
  have h := compress_resize_formula bigCodec resizeFs "images/big2.png"
    ⟨2000000, some ⟨4000, 3000⟩⟩ ⟨4000, 3000⟩ (by decide) (by decide) rfl (by decide)
  exact h.trans (by decide)

/-- C5 counterexample: a zero-byte source file passes the size check
(`0 ≤ 976560`) and is returned unchanged — the adapter does not fail
with a `DecodeError` on it. -/
theorem compress_zero_size_cex :
    compress_image smallCodec zeroFs "images/zero.png" = .ok ("images/zero.png", zeroFs) ∧
    compress_image smallCodec zeroFs "images/zero.png" ≠ .error CompressError.decodeError :=
  ⟨by decide, by decide⟩

/-- C5 (amended): only a source file exceeding the ceiling whose bytes
are not a decodable image makes the adapter fail with a `DecodeError`
(returning no path); a zero-byte file is within the ceiling and is
returned unchanged. -/
theorem compress_decode_error_amended (codec : Codec) (fs : Fs) (p : String)
    (f : FileData) (hf : getFile fs p = some f) (hbig : size_limit < f.size)
    (hnd : f.image = none) :
    compress_image codec fs p = .error CompressError.decodeError := by
  simp only [compress_image, hf, hnd]
  rw [if_neg (by omega)]

theorem compress_decode_error_amended_witness :
    compress_image smallCodec badFs "images/bad.png" = .error CompressError.decodeError :=
  compress_decode_error_amended smallCodec badFs "images/bad.png"
    ⟨2000000, none⟩ (by decide) (by decide) rfl

/-- C10: `compress_image` writes only to the derived paths
`<path>_compressed.jpg` and `<path>_resized.jpg`: the file at the
original path — and every path other than the two derived ones — is
unchanged in the returned filesystem. -/
theorem compress_frame_original_untouched (codec : Codec) (fs : Fs) (p r : String)
    (fs₂ : Fs) (q : String) (h : compress_image codec fs p = .ok (r, fs₂))
    (hq1 : q ≠ p ++ "_compressed.jpg") (hq2 : q ≠ p ++ "_resized.jpg") :
    getFile fs₂ p = getFile fs p ∧ getFile fs₂ q = getFile fs q := by
  have hp1 : p ≠ p ++ "_compressed.jpg" := ne_append_right p _ (by decide)
  have hp2 : p ≠ p ++ "_resized.jpg" := ne_append_right p _ (by decide)
  cases hf : getFile fs p with
  | none =>
    simp only [compress_image, hf] at h
    exact Except.noConfusion h
  | some f =>
    simp only [compress_image, hf] at h
    split at h
    · simp only [Except.ok.injEq, Prod.mk.injEq] at h
      obtain ⟨-, rfl⟩ := h
      exact ⟨hf, rfl⟩
    · cases himg : f.image with
      | none =>
        simp only [himg] at h
        exact Except.noConfusion h
      | some img =>
        simp only [himg] at h
        split at h
        · simp only [Except.ok.injEq, Prod.mk.injEq] at h
          obtain ⟨-, rfl⟩ := h
          exact ⟨(getFile_cons_ne fs _ p _ hp1).trans hf, getFile_cons_ne fs _ q _ hq1⟩
        · simp only [Except.ok.injEq, Prod.mk.injEq] at h
          obtain ⟨-, rfl⟩ := h
          constructor
          · rw [getFile_cons_ne _ _ _ _ hp2, getFile_cons_ne _ _ _ _ hp1]
            exact hf
          · rw [getFile_cons_ne _ _ _ _ hq2, getFile_cons_ne _ _ _ _ hq1]

theorem compress_frame_original_untouched_witness :
    getFile resizeFsAfter "images/big2.png" = getFile resizeFs "images/big2.png" ∧
    getFile resizeFsAfter "images/other.png" = getFile resizeFs "images/other.png" :=
  compress_frame_original_untouched bigCodec resizeFs "images/big2.png"
    "images/big2.png_resized.jpg" resizeFsAfter "images/other.png"
    (by decide) (by decide) (by decide)

/-- C6 counterexample: the single facet's tag feature carries the
constant string `"トロプリ"`, not an empty string. -/
theorem post_record_tag_cex :
    ((mkPostRecord "images/big.png").facets.map fun fct =>
        fct.features.map fun ft => ft.tag) = [["トロプリ"]] ∧
    ("トロプリ" : String) ≠ "" :=
  ⟨rfl, by decide⟩

/-- C6 (amended): every post record has empty text and exactly one
rich-text facet whose byte range is `[0, 0]` and whose single tag
feature carries the constant tag `"トロプリ"`. -/
theorem post_record_structure (p : String) :
    (mkPostRecord p).text = "" ∧
    (mkPostRecord p).facets =
      [{ index := { byteStart := 0, byteEnd := 0 },
         features := [{ type := "app.bsky.richtext.facet#tag", tag := "トロプリ" }] }] :=
  ⟨rfl, rfl⟩

/-! ### Line-splitting lemmas for the PostLog round trip -/

/-- C1 counterexample: on a world holding a single unposted 2,000,000
byte image, the invocation publishes the original oversized bytes and
leaves the filesystem untouched, while the size adapter evaluated at
the very same input would have produced (and returned) the different
derived path `_compressed.jpg` — the published bytes are not the
size-adapted ones, and no derived-file cleanup stage runs. -/
theorem orchestrator_skips_size_adaptation_cex :
    (post_to_bluesky bigWorld).1.published = [("images/big.png", bigFile)] ∧
    (post_to_bluesky bigWorld).1.fs = bigWorld.fs ∧
    size_limit < bigFile.size ∧
    compress_image smallCodec bigWorld.fs "images/big.png" =
      .ok ("images/big.png_compressed.jpg",
        ("images/big.png_compressed.jpg", ⟨500000, some ⟨4000, 3000⟩⟩) :: bigWorld.fs) ∧
    ("images/big.png" : String) ≠ "images/big.png_compressed.jpg" :=
  ⟨by decide, by decide, by decide, by decide, by decide⟩

/-- C1 (amended): on every invocation that finds an unposted image with
a readable file, the orchestrator authenticates, selects the image,
publishes the original image bytes unmodified, and appends the path to
the post log; it never invokes the size adapter or the derived-file
cleanup, so the filesystem is returned unchanged. -/
theorem orchestrator_publishes_original (w : World) (p : String) (f : FileData)
    (hsel : get_next_image w.dirList w.log = some p)
    (hread : getFile w.fs p = some f) :
    post_to_bluesky w =
      ({ w with
          published := w.published ++ [(p, f)]
          log := some ((w.log.getD "") ++ p ++ "\n") },
        RunOutcome.posted p) := by
  have hnp := get_next_image_not_posted _ _ _ hsel
  simp [post_to_bluesky, hsel, hnp, hread, log_posted_image]

theorem orchestrator_publishes_original_witness :
    post_to_bluesky bigWorld =
      ({ bigWorld with
          published := [("images/big.png", bigFile)]
          log := some "images/big.png\n" },
        RunOutcome.posted "images/big.png") := by
  have h := orchestrator_publishes_original bigWorld "images/big.png" bigFile
    (by decide) (by decide)
  exact h.trans (by decide)

